import Mathlib

/-!
A shallow embedding of the framebuffer console and interrupt-handler core of
the `rustkerneldev` kernel (src/main.rs, src/writer.rs, src/interruptsa.rs).

Modelling conventions:
* `usize`/`u8` arithmetic is modelled on `Nat`; all quantities of the claims
  (pixel coordinates, byte offsets, buffer lengths) stay far below `2^64`,
  and `u8` intensities are only divided and compared, never overflowed.
* A Rust panic (slice indexing out of range, `copy_from_slice` length
  mismatch, the explicit `panic!` on an unsupported pixel format) is
  modelled by `Option.none`: the kernel's panic handler halts in a `hlt`
  loop, so a panicking call never returns and its partial state is
  unobservable.
* The framebuffer `&mut [u8]` is a `List Nat`; writes that would fall
  outside the slice are impossible by construction and are replaced by the
  `none` result exactly where Rust would panic.
* The font constants module (`src/constants.rs`) and the
  `noto_sans_mono_bitmap` crate are not part of the sources under `src/`;
  following the spec, which only speaks of "fixed glyph cell dimensions
  (advance width, raster height + line spacing)" and a per-character
  raster lookup with a fallback, the model is parameterized by a
  `FontModel` carrying the two cell dimensions and the raster lookup
  function, so every theorem holds for all values of those constants.
-/

/-- Pixel formats of `bootloader_api::info::PixelFormat` as matched by
`FrameBufferWriter::write_pixel`: `Rgb`, `Bgr`, `U8` are handled, every
other constructor falls into the `other => panic!` arm. -/
inductive PixelFormat where
  | rgb : PixelFormat
  | bgr : PixelFormat
  | u8 : PixelFormat
  | unknown (red_position green_position blue_position : Nat) : PixelFormat
deriving DecidableEq

/-- A pixel format is supported when it is one of the three arms the
renderer handles. -/
def PixelFormat.supported : PixelFormat → Bool
  | .rgb => true
  | .bgr => true
  | .u8 => true
  | .unknown _ _ _ => false

/-- The geometry of `bootloader_api::info::FrameBufferInfo` used by the
writer: width, height, stride and bytes per pixel in addition to the
format. -/
structure FrameBufferInfo where
  byte_len : Nat
  width : Nat
  height : Nat
  pixel_format : PixelFormat
  bytes_per_pixel : Nat
  stride : Nat
deriving DecidableEq

/-- A rasterized character as produced by the external
`noto_sans_mono_bitmap` crate: a list of rows of `u8` intensities and the
advance width reported by `RasterizedChar::width`. -/
structure RasterizedChar where
  raster : List (List Nat)
  width : Nat
deriving DecidableEq

/-- Modelled from the spec: `src/constants.rs` (module `font_constants`)
and the glyph crate are not under `src/`.  The spec describes them as fixed
glyph cell dimensions (raster height token `CHAR_RASTER_HEIGHT`, advance
width token `CHAR_RASTER_WIDTH`) together with a per-character raster
lookup `get_char_raster` that always succeeds thanks to a fallback glyph.
The model quantifies over all such font data. -/
structure FontModel where
  char_raster_height : Nat
  char_raster_width : Nat
  get_char_raster : Char → RasterizedChar

/-- Rust `const LINE_SPACING: usize = 2` (src/writer.rs). -/
def LINE_SPACING : Nat := 2

/-- Rust `const LETTER_SPACING: usize = 0` (src/writer.rs). -/
def LETTER_SPACING : Nat := 0

/-- Rust `const BORDER_PADDING: usize = 1` (src/writer.rs). -/
def BORDER_PADDING : Nat := 1

/-- The state of `FrameBufferWriter`: the exclusively borrowed byte buffer,
its geometry, and the cursor in pixel coordinates. -/
structure FrameBufferWriter where
  framebuffer : List Nat
  info : FrameBufferInfo
  x_pos : Nat
  y_pos : Nat
deriving DecidableEq

namespace FrameBufferWriter

/-- Rust `self.width()` — `self.info.width`. -/
def width (w : FrameBufferWriter) : Nat := w.info.width

/-- Rust `self.height()` — `self.info.height`. -/
def height (w : FrameBufferWriter) : Nat := w.info.height

/-- Rust `carriage_return`: reset `x_pos` to the border padding. -/
def carriage_return (w : FrameBufferWriter) : FrameBufferWriter :=
  { w with x_pos := BORDER_PADDING }

/-- Rust `newline`: advance `y_pos` by one glyph cell height (raster height plus
line spacing), then carriage return.  No clamping is performed. -/
def newline (F : FontModel) (w : FrameBufferWriter) : FrameBufferWriter :=
  carriage_return { w with y_pos := w.y_pos + F.char_raster_height + LINE_SPACING }

/-- Rust `clear`: reset both cursor coordinates to the border padding and fill
the whole framebuffer with `0` (`self.framebuffer.fill(0)`). -/
def clear (w : FrameBufferWriter) : FrameBufferWriter :=
  { w with x_pos := BORDER_PADDING, y_pos := BORDER_PADDING,
           framebuffer := w.framebuffer.map (fun _ => 0) }

/-- Rust `FrameBufferWriter::new`: store the buffer and geometry with a zero
cursor, then `clear`. -/
def new (framebuffer : List Nat) (info : FrameBufferInfo) : FrameBufferWriter :=
  clear { framebuffer := framebuffer, info := info, x_pos := 0, y_pos := 0 }

/-- Rust `set_cursor(row, column)` translated line by line: compute the pixel
coordinates from the text-grid coordinate, then apply the vertical clamp
branch (which calls `clear`) and the horizontal clamp branch (which calls
`newline`). -/
def set_cursor (F : FontModel) (w : FrameBufferWriter) (row column : Nat) :
    FrameBufferWriter :=
  let max_row := w.height / (F.char_raster_height + LINE_SPACING)
  let max_column := w.width / (F.char_raster_width + LETTER_SPACING)
  let w1 : FrameBufferWriter :=
    { w with y_pos := row * (F.char_raster_height + LINE_SPACING),
             x_pos := column * (F.char_raster_width + LETTER_SPACING) }
  let w2 : FrameBufferWriter :=
    if w1.y_pos ≥ w1.height then
      clear { w1 with y_pos := (max_row - 1) * (F.char_raster_height + LINE_SPACING) }
    else w1
  if w2.x_pos ≥ w2.width then
    newline F { w2 with x_pos := (max_column - 1) * (F.char_raster_width + LETTER_SPACING) }
  else w2

/-- The color array computed by `write_pixel` for a supported format
(`none` for the `other => panic!` arm).  The Rust array always has four
entries; the trailing entries pad the named tuple with `0`. -/
def color_for (fmt : PixelFormat) (intensity : Nat) : Option (List Nat) :=
  match fmt with
  | .rgb => some [intensity, intensity, intensity / 2, 0]
  | .bgr => some [intensity / 2, intensity, intensity, 0]
  | .u8 => some [if intensity > 200 then 0xf else 0, 0, 0, 0]
  | .unknown _ _ _ => none

/-- Rust `copy_from_slice` on the subslice `dst[start .. start + src.length]`,
assuming the caller has checked the range (as `write_pixel`'s success path
does). -/
def copy_from_slice (dst : List Nat) (start : Nat) (src : List Nat) : List Nat :=
  dst.take start ++ src ++ dst.drop (start + src.length)

/-- Rust `write_pixel(x, y, intensity)`: compute the linear pixel offset, derive
the color for the pixel format (panic — `none` — for an unsupported one),
then copy `bytes_per_pixel` bytes of the color into the framebuffer at the
byte offset and read the first written byte back.  Each Rust panic point is
reflected as `none`: `color[..bytes_per_pixel]` needs
`bytes_per_pixel ≤ 4`, the slice `framebuffer[byte_offset ..
byte_offset + bytes_per_pixel]` needs `byte_offset + bytes_per_pixel ≤
framebuffer.length`, and the volatile read-back of
`framebuffer[byte_offset]` needs `byte_offset < framebuffer.length`. -/
def write_pixel (w : FrameBufferWriter) (x y intensity : Nat) :
    Option FrameBufferWriter :=
  let pixel_offset := y * w.info.stride + x
  match color_for w.info.pixel_format intensity with
  | none => none
  | some color =>
    let bytes_per_pixel := w.info.bytes_per_pixel
    let byte_offset := pixel_offset * bytes_per_pixel
    if bytes_per_pixel ≤ color.length
        ∧ byte_offset + bytes_per_pixel ≤ w.framebuffer.length
        ∧ byte_offset < w.framebuffer.length then
      some { w with framebuffer :=
               copy_from_slice w.framebuffer byte_offset (color.take bytes_per_pixel) }
    else none

/-- Run `write_pixel` over a list of `(x, y, intensity)` triples in order,
stopping at the first panic. -/
def write_pixels (w : FrameBufferWriter) :
    List (Nat × Nat × Nat) → Option FrameBufferWriter
  | [] => some w
  | p :: ps =>
    match write_pixel w p.1 p.2.1 p.2.2 with
    | none => none
    | some w1 => write_pixels w1 ps

/-- The `(x, y, intensity)` triples visited by the nested loops of
`write_rendered_char`: row `y` of the raster, byte `x` within the row,
written at `(x_pos + x, y_pos + y)`. -/
def glyph_pixels (x_pos y_pos : Nat) (rows : List (List Nat)) :
    List (Nat × Nat × Nat) :=
  (rows.enum.map (fun r =>
    (r.2.enum.map (fun b => (x_pos + b.1, y_pos + r.1, b.2))))).flatten

/-- Rust `write_rendered_char`: paint every raster pixel at the cursor, then
advance `x_pos` by the rendered width plus letter spacing. -/
def write_rendered_char (w : FrameBufferWriter) (rc : RasterizedChar) :
    Option FrameBufferWriter :=
  (write_pixels w (glyph_pixels w.x_pos w.y_pos rc.raster)).map
    (fun w1 => { w1 with x_pos := w1.x_pos + rc.width + LETTER_SPACING })

/-- Rust `write_char`: `'\n'` is a newline, `'\r'` a carriage return; a
printable character first forces a newline when its cell would cross the
right margin, then clears the screen when its bottom edge would cross the
height, then renders its raster. -/
def write_char (F : FontModel) (w : FrameBufferWriter) (c : Char) :
    Option FrameBufferWriter :=
  if c = '\n' then some (newline F w)
  else if c = '\r' then some (carriage_return w)
  else
    let w1 := if w.x_pos + F.char_raster_width ≥ w.width then newline F w else w
    let w2 := if w1.y_pos + F.char_raster_height + BORDER_PADDING ≥ w1.height
              then clear w1 else w1
    write_rendered_char w2 (F.get_char_raster c)

/-- The character loop of `fmt::Write::write_str`. -/
def write_chars (F : FontModel) (w : FrameBufferWriter) :
    List Char → Option FrameBufferWriter
  | [] => some w
  | c :: cs =>
    match write_char F w c with
    | none => none
    | some w1 => write_chars F w1 cs

/-- Rust `write_str(s)`: write every character of the string in order. -/
def write_str (F : FontModel) (w : FrameBufferWriter) (s : String) :
    Option FrameBufferWriter :=
  write_chars F w s.data

/-- The `(x, y, 0)` triples visited by the repaint loops of `backspace`:
`y` ascends over the raster height, `x` descends over the raster width
(`.rev()`), all with intensity `0`. -/
def backspace_pixels (F : FontModel) (x_pos y_pos : Nat) :
    List (Nat × Nat × Nat) :=
  ((List.range F.char_raster_height).map (fun dy =>
    ((List.range F.char_raster_width).reverse.map (fun dx =>
      (x_pos + dx, y_pos + dy, 0))))).flatten

/-- Rust `backspace()`: when the cursor is at least one full glyph cell to the
right of the border padding, move it left by one advance width and repaint
that cell with intensity `0`; otherwise do nothing. -/
def backspace (F : FontModel) (w : FrameBufferWriter) :
    Option FrameBufferWriter :=
  if w.x_pos ≥ BORDER_PADDING + F.char_raster_width then
    let w1 : FrameBufferWriter :=
      { w with x_pos := w.x_pos - (F.char_raster_width + LETTER_SPACING) }
    write_pixels w1 (backspace_pixels F w1.x_pos w1.y_pos)
  else some w

end FrameBufferWriter

/-- The operations a console user can perform on an existing writer, per
the public surface of `FrameBufferWriter` used by `main.rs` and
`interruptsa.rs`: formatted writes, `set_cursor`, and `backspace`. -/
inductive ConsoleOp where
  | write (s : String) : ConsoleOp
  | setCursor (row column : Nat) : ConsoleOp
  | doBackspace : ConsoleOp

/-- Run one console operation; `set_cursor` is infallible, the two others
propagate pixel-write panics. -/
def runOp (F : FontModel) (w : FrameBufferWriter) :
    ConsoleOp → Option FrameBufferWriter
  | .write s => w.write_str F s
  | .setCursor row column => some (w.set_cursor F row column)
  | .doBackspace => w.backspace F

/-- Run a sequence of console operations in order. -/
def runOps (F : FontModel) (w : FrameBufferWriter) :
    List ConsoleOp → Option FrameBufferWriter
  | [] => some w
  | op :: ops =>
    match runOp F w op with
    | none => none
    | some w1 => runOps F w1 ops

/-- Rust `printx(args)` (src/main.rs): lock the process-wide
`FRAME_BUFFER_WRITER`; if it is still `None` do nothing, otherwise format
into the writer.  The outer `Option` is the panic monad: writing can panic
inside `write_pixel`, while the `None`-console path never does. -/
def printx (F : FontModel) (console : Option FrameBufferWriter) (s : String) :
    Option (Option FrameBufferWriter) :=
  match console with
  | none => some none
  | some w => (w.write_str F s).map some

/-- Rust `pc_keyboard::DecodedKey` as consumed by the keyboard handler: a
Unicode character, or a raw key rendered through its `Debug` text (its
symbolic identifier). -/
inductive DecodedKey where
  | unicode (c : Char) : DecodedKey
  | rawKey (dbg : String) : DecodedKey

/-- The `match key` dispatch of `keyboard_interrupt_handler`
(src/interruptsa.rs, lines 107–119): a decoded Unicode `'\u{8}'` invokes
`backspace` on the locked console when it is initialized; any other
Unicode character is printed via `print!("{}", character)`; a raw key is
printed via `print!("{:?}", key)`. -/
def handle_decoded_key (F : FontModel) (key : DecodedKey)
    (console : Option FrameBufferWriter) : Option (Option FrameBufferWriter) :=
  match key with
  | .unicode character =>
    if character = Char.ofNat 8 then
      match console with
      | none => some none
      | some w => (w.backspace F).map some
    else printx F console (String.mk [character])
  | .rawKey dbg => printx F console dbg

/-- The byte indices of the framebuffer occupied by the pixel at `(x, y)`:
the `bytes_per_pixel` bytes starting at `(y·stride + x)·bytes_per_pixel`. -/
def pixelBytes (info : FrameBufferInfo) (x y j : Nat) : Prop :=
  (y * info.stride + x) * info.bytes_per_pixel ≤ j ∧
  j < (y * info.stride + x) * info.bytes_per_pixel + info.bytes_per_pixel

instance (info : FrameBufferInfo) (x y j : Nat) : Decidable (pixelBytes info x y j) := by
  unfold pixelBytes
  infer_instance

/-- The byte indices of the glyph cell whose top-left pixel is `(x0, y0)`:
a raster width times raster height block of pixels. -/
def cellBytes (F : FontModel) (info : FrameBufferInfo) (x0 y0 j : Nat) : Prop :=
  ∃ dx dy, dx < F.char_raster_width ∧ dy < F.char_raster_height ∧
    pixelBytes info (x0 + dx) (y0 + dy) j

/-! ## The interrupt-handler layer (src/interruptsa.rs)

The hardware handlers are modelled by the traces of externally visible
actions they perform, in program order, when they run to completion (a
panic inside a console call would halt instead of returning; the traces
describe the completing executions the claims quantify over). -/

/-- Rust `const PIC_1_OFFSET: u8 = 32`. -/
def PIC_1_OFFSET : Nat := 32

/-- Rust `const PIC_2_OFFSET: u8 = PIC_1_OFFSET + 8`. -/
def PIC_2_OFFSET : Nat := PIC_1_OFFSET + 8

/-- Rust `enum InterruptIndex`: `Timer = PIC_1_OFFSET`, `Keyboard` the next
discriminant. -/
inductive InterruptIndex where
  | Timer : InterruptIndex
  | Keyboard : InterruptIndex

/-- Rust `InterruptIndex::as_u8`. -/
def InterruptIndex.as_u8 : InterruptIndex → Nat
  | .Timer => PIC_1_OFFSET
  | .Keyboard => PIC_1_OFFSET + 1

/-- Externally visible actions of a hardware interrupt handler: reading
the keyboard data port, the console work, and the end-of-interrupt
acknowledgment `notify_end_of_interrupt(line)` sent to the controller. -/
inductive HwAction where
  | portRead (port : Nat) : HwAction
  | consoleBackspace : HwAction
  | consolePrint (s : String) : HwAction
  | eoi (line : Nat) : HwAction

/-- Recognizer for acknowledgment actions. -/
def HwAction.isEoi : HwAction → Bool
  | .eoi _ => true
  | _ => false

/-- Rust `timer_interrupt_handler`: the body only acknowledges the timer line
(the `print!` there is commented out). -/
def timer_interrupt_handler_actions : List HwAction :=
  [HwAction.eoi InterruptIndex.Timer.as_u8]

/-- The console work of the keyboard handler's `match key` arm. -/
def keyboard_console_actions : DecodedKey → List HwAction
  | .unicode c =>
    if c = Char.ofNat 8 then [HwAction.consoleBackspace]
    else [HwAction.consolePrint (String.mk [c])]
  | .rawKey dbg => [HwAction.consolePrint dbg]

/-- Rust `keyboard_interrupt_handler`: read one byte from port `0x60`, do the
console work for the decoded key (if the decoder produced a complete key
event), then acknowledge the keyboard line.  `outcome` is `none` when
`add_byte`/`process_keyevent` yielded no complete key. -/
def keyboard_interrupt_handler_actions (outcome : Option DecodedKey) :
    List HwAction :=
  HwAction.portRead 0x60 ::
    ((match outcome with
      | none => []
      | some k => keyboard_console_actions k) ++
     [HwAction.eoi InterruptIndex.Keyboard.as_u8])

/-! ## Concrete instances used by witnesses and counterexamples -/

/-- A sample font with the glyph cell dimensions the spec describes for
the Size16 monospace face: raster height 16, advance width 8. -/
def fontS : FontModel := ⟨16, 8, fun _ => ⟨[[100]], 8⟩⟩

/-- Geometry of a 100×100 single-byte-per-pixel buffer. -/
def infoA : FrameBufferInfo := ⟨10000, 100, 100, PixelFormat.rgb, 1, 100⟩

/-- A writer over `infoA` with a small nonzero buffer and cursor (9, 9). -/
def wA : FrameBufferWriter := ⟨[5, 6, 7, 8], infoA, 9, 9⟩

/-- Geometry of a 30×10 single-byte-per-pixel buffer. -/
def infoB : FrameBufferInfo := ⟨8, 30, 10, PixelFormat.rgb, 1, 30⟩

/-- A freshly created writer over `infoB`. -/
def wB : FrameBufferWriter := FrameBufferWriter.new (List.replicate 8 0) infoB

/-- Geometry of a 2×2 RGB buffer with two bytes per pixel. -/
def infoC : FrameBufferInfo := ⟨4, 2, 2, PixelFormat.rgb, 2, 2⟩

/-- A writer over `infoC` with buffer `[9, 9, 9, 9]`. -/
def wC : FrameBufferWriter := ⟨[9, 9, 9, 9], infoC, 1, 1⟩

/-- The state of `wC` after `write_pixel(1, 0, 10)`. -/
def wCafter : FrameBufferWriter := ⟨[9, 9, 10, 10], infoC, 1, 1⟩

/-- A degenerate writer with zero bytes per pixel and an empty buffer. -/
def wZ : FrameBufferWriter := ⟨[], ⟨0, 1, 1, PixelFormat.rgb, 0, 1⟩, 0, 0⟩

/-- A writer whose geometry declares five bytes per pixel. -/
def wP : FrameBufferWriter := ⟨[0, 0, 0, 0, 0, 0], ⟨6, 1, 1, PixelFormat.rgb, 5, 1⟩, 0, 0⟩

/-- A writer with the cursor at the left margin (`x_pos = 0`). -/
def wM : FrameBufferWriter := ⟨[3, 3], ⟨2, 20, 20, PixelFormat.rgb, 1, 20⟩, 0, 5⟩

/-- A writer whose pixel format is an unsupported `Unknown` variant. -/
def wU : FrameBufferWriter :=
  ⟨[0, 0, 0, 0], ⟨4, 2, 2, PixelFormat.unknown 0 8 16, 1, 2⟩, 0, 0⟩

/-! ## Helper lemmas about the byte-level copy -/

namespace FrameBufferWriter

/-- Length is preserved by an in-range `copy_from_slice`. -/
theorem copy_from_slice_length (dst src : List Nat) (start : Nat)
    (h : start + src.length ≤ dst.length) :
    (copy_from_slice dst start src).length = dst.length := by
  simp only [copy_from_slice, List.length_append, List.length_take, List.length_drop]
  omega

/-- Pointwise description of an in-range `copy_from_slice`: inside the
target range the bytes come from `src`, outside they are unchanged. -/
theorem copy_from_slice_getElem? (dst src : List Nat) (start : Nat)
    (h : start + src.length ≤ dst.length) (j : Nat) :
    (copy_from_slice dst start src)[j]? =
      if start ≤ j ∧ j < start + src.length then src[j - start]? else dst[j]? := by
  have hstart : start ≤ dst.length := by omega
  have hlt : (dst.take start).length = start := by
    simp [List.length_take]; omega
  have hts : (dst.take start ++ src).length = start + src.length := by
    simp [List.length_append, hlt]
  unfold copy_from_slice
  rcases Nat.lt_or_ge j start with hj | hj
  · rw [List.getElem?_append_left (by omega), List.getElem?_append_left (by omega),
      List.getElem?_take_of_lt hj, if_neg (by omega)]
  · rcases Nat.lt_or_ge j (start + src.length) with hj2 | hj2
    · rw [List.getElem?_append_left (by omega), List.getElem?_append_right (by omega),
        hlt, if_pos ⟨hj, hj2⟩]
    · rw [List.getElem?_append_right (by omega), hts, if_neg (by omega),
        List.getElem?_drop]
      congr 1
      omega

end FrameBufferWriter

namespace FrameBufferWriter

/-- The color array of a supported format always has four entries. -/
theorem color_for_length (fmt : PixelFormat) (i : Nat) (color : List Nat)
    (h : color_for fmt i = some color) : color.length = 4 := by
  cases fmt <;> simp only [color_for, Option.some.injEq] at h
  case unknown => exact Option.noConfusion h
  all_goals subst h; rfl

/-- Intensity `0` produces the all-zero color array in every supported
format. -/
theorem color_for_zero (fmt : PixelFormat) (color : List Nat)
    (h : color_for fmt 0 = some color) : color = [0, 0, 0, 0] := by
  cases fmt <;> simp only [color_for, Option.some.injEq] at h
  case unknown => exact Option.noConfusion h
  all_goals subst h; decide

/-- Inversion of a successful `write_pixel`: the format was supported, all
three in-range conditions held, and the new state is the byte copy. -/
theorem write_pixel_some_spec {w : FrameBufferWriter} {x y i : Nat}
    {w' : FrameBufferWriter} (h : w.write_pixel x y i = some w') :
    ∃ color, color_for w.info.pixel_format i = some color ∧
      w.info.bytes_per_pixel ≤ color.length ∧
      (y * w.info.stride + x) * w.info.bytes_per_pixel + w.info.bytes_per_pixel
          ≤ w.framebuffer.length ∧
      (y * w.info.stride + x) * w.info.bytes_per_pixel < w.framebuffer.length ∧
      w' = { w with framebuffer :=
               (copy_from_slice w.framebuffer
                 ((y * w.info.stride + x) * w.info.bytes_per_pixel)
                 (color.take w.info.bytes_per_pixel)) } := by
  simp only [write_pixel] at h
  cases hc : color_for w.info.pixel_format i with
  | none => rw [hc] at h; exact Option.noConfusion h
  | some color =>
    rw [hc] at h
    simp only [] at h
    by_cases hcond : w.info.bytes_per_pixel ≤ color.length
        ∧ (y * w.info.stride + x) * w.info.bytes_per_pixel + w.info.bytes_per_pixel
            ≤ w.framebuffer.length
        ∧ (y * w.info.stride + x) * w.info.bytes_per_pixel < w.framebuffer.length
    · rw [if_pos hcond] at h
      exact ⟨color, rfl, hcond.1, hcond.2.1, hcond.2.2, (Option.some.inj h).symm⟩
    · rw [if_neg hcond] at h
      exact Option.noConfusion h

/-- A successful `write_pixel` changes neither the geometry nor the cursor
nor the buffer length. -/
theorem write_pixel_some_fields {w : FrameBufferWriter} {x y i : Nat}
    {w' : FrameBufferWriter} (h : w.write_pixel x y i = some w') :
    w'.info = w.info ∧ w'.x_pos = w.x_pos ∧ w'.y_pos = w.y_pos ∧
    w'.framebuffer.length = w.framebuffer.length := by
  obtain ⟨color, hc, h1, h2, h3, rfl⟩ := write_pixel_some_spec h
  refine ⟨rfl, rfl, rfl, ?_⟩
  apply copy_from_slice_length
  simp only [List.length_take]
  omega

/-- Rust `write_pixels` over any pixel list preserves geometry, cursor and
buffer length. -/
theorem write_pixels_some_fields :
    ∀ (ps : List (Nat × Nat × Nat)) (w w' : FrameBufferWriter),
    write_pixels w ps = some w' →
    w'.info = w.info ∧ w'.x_pos = w.x_pos ∧ w'.y_pos = w.y_pos ∧
    w'.framebuffer.length = w.framebuffer.length := by
  intro ps
  induction ps with
  | nil =>
    intro w w' h
    simp only [write_pixels, Option.some.injEq] at h
    subst h
    exact ⟨rfl, rfl, rfl, rfl⟩
  | cons p ps ih =>
    intro w w' h
    simp only [write_pixels] at h
    cases hp : write_pixel w p.1 p.2.1 p.2.2 with
    | none => rw [hp] at h; exact Option.noConfusion h
    | some w1 =>
      rw [hp] at h
      obtain ⟨hi1, hx1, hy1, hl1⟩ := write_pixel_some_fields hp
      obtain ⟨hi2, hx2, hy2, hl2⟩ := ih w1 w' h
      exact ⟨hi2.trans hi1, hx2.trans hx1, hy2.trans hy1, hl2.trans hl1⟩

end FrameBufferWriter

namespace FrameBufferWriter

/-- Pointwise description of a successful `write_pixel`: inside the
pixel's byte range the framebuffer holds the corresponding color byte,
outside it is unchanged. -/
theorem write_pixel_getElem? {w : FrameBufferWriter} {x y i : Nat}
    {w' : FrameBufferWriter} {color : List Nat}
    (hc : color_for w.info.pixel_format i = some color)
    (h : w.write_pixel x y i = some w') (j : Nat) :
    w'.framebuffer[j]? =
      if pixelBytes w.info x y j then
        color[j - (y * w.info.stride + x) * w.info.bytes_per_pixel]?
      else w.framebuffer[j]? := by
  obtain ⟨color2, hc2, h1, h2, h3, rfl⟩ := write_pixel_some_spec h
  rw [hc] at hc2
  obtain rfl := Option.some.inj hc2
  have hlen : (color.take w.info.bytes_per_pixel).length = w.info.bytes_per_pixel := by
    simp only [List.length_take]
    omega
  show (copy_from_slice w.framebuffer
      ((y * w.info.stride + x) * w.info.bytes_per_pixel)
      (color.take w.info.bytes_per_pixel))[j]? = _
  rw [copy_from_slice_getElem? _ _ _ (by rw [hlen]; omega) j, hlen]
  by_cases hj : pixelBytes w.info x y j
  · obtain ⟨hj1, hj2⟩ := hj
    rw [if_pos ⟨hj1, hj2⟩, if_pos ⟨hj1, hj2⟩]
    exact List.getElem?_take_of_lt (by omega)
  · rw [if_neg (fun hcon => hj ⟨hcon.1, hcon.2⟩), if_neg hj]

/-- Painting a list of zero-intensity pixels: every byte in the range of
some painted pixel becomes `0`, every other byte is unchanged; geometry,
cursor and buffer length are untouched. -/
theorem write_pixels_zero_effect :
    ∀ (ps : List (Nat × Nat × Nat)) (w w' : FrameBufferWriter),
      (∀ p ∈ ps, p.2.2 = 0) →
      write_pixels w ps = some w' →
      ∀ j : Nat,
        ((∃ p ∈ ps, pixelBytes w.info p.1 p.2.1 j) → w'.framebuffer[j]? = some 0) ∧
        ((¬ ∃ p ∈ ps, pixelBytes w.info p.1 p.2.1 j) →
          w'.framebuffer[j]? = w.framebuffer[j]?) := by
  intro ps
  induction ps with
  | nil =>
    intro w w' _ h j
    simp only [write_pixels, Option.some.injEq] at h
    subst h
    constructor
    · rintro ⟨p, hp, -⟩
      exact absurd hp (List.not_mem_nil p)
    · intro _
      rfl
  | cons p ps ih =>
    intro w w' hz h j
    simp only [write_pixels] at h
    cases hp : write_pixel w p.1 p.2.1 p.2.2 with
    | none => rw [hp] at h; exact Option.noConfusion h
    | some w1 =>
      rw [hp] at h
      have hz0 : p.2.2 = 0 := hz p (List.mem_cons_self p ps)
      rw [hz0] at hp
      obtain ⟨color, hc, hb, -, -, -⟩ := write_pixel_some_spec hp
      have hc0 : color = [0, 0, 0, 0] := color_for_zero _ _ hc
      subst hc0
      have hpoint := write_pixel_getElem? hc hp
      obtain ⟨hi1, -, -, -⟩ := write_pixel_some_fields hp
      have ihspec := ih w1 w' (fun q hq => hz q (List.mem_cons_of_mem p hq)) h
      rw [hi1] at ihspec
      constructor
      · rintro ⟨q, hq, hqpix⟩
        rcases List.mem_cons.mp hq with rfl | hq'
        · by_cases hrest : ∃ r ∈ ps, pixelBytes w.info r.1 r.2.1 j
          · exact (ihspec j).1 hrest
          · rw [(ihspec j).2 hrest, hpoint j, if_pos hqpix]
            have hb' : w.info.bytes_per_pixel ≤ 4 := by simpa using hb
            have hk : j - (q.2.1 * w.info.stride + q.1) * w.info.bytes_per_pixel < 4 := by
              obtain ⟨ha, hb2⟩ := hqpix
              omega
            have hz4 : ∀ k, k < 4 → ([0, 0, 0, 0] : List Nat)[k]? = some 0 := by decide
            exact hz4 _ hk
        · exact (ihspec j).1 ⟨q, hq', hqpix⟩
      · intro hnone
        have hnrest : ¬ ∃ r ∈ ps, pixelBytes w.info r.1 r.2.1 j := by
          rintro ⟨r, hr, hrpix⟩
          exact hnone ⟨r, List.mem_cons_of_mem p hr, hrpix⟩
        have hnp : ¬ pixelBytes w.info p.1 p.2.1 j := by
          intro hcon
          exact hnone ⟨p, List.mem_cons_self p ps, hcon⟩
        rw [(ihspec j).2 hnrest, hpoint j, if_neg hnp]

end FrameBufferWriter

namespace FrameBufferWriter

/-- Rust `clear` preserves geometry and buffer length and resets the cursor. -/
theorem clear_fields (w : FrameBufferWriter) :
    (clear w).info = w.info ∧ (clear w).framebuffer.length = w.framebuffer.length ∧
    (clear w).x_pos = BORDER_PADDING ∧ (clear w).y_pos = BORDER_PADDING := by
  simp [clear]

/-- Rust `set_cursor` preserves geometry and buffer length. -/
theorem set_cursor_fields (F : FontModel) (w : FrameBufferWriter) (row column : Nat) :
    (set_cursor F w row column).info = w.info ∧
    (set_cursor F w row column).framebuffer.length = w.framebuffer.length := by
  simp only [set_cursor, newline, carriage_return, clear]
  split_ifs <;> simp

/-- A successful `write_rendered_char` preserves geometry, vertical
position and buffer length, and advances `x_pos` by the rendered width
plus letter spacing. -/
theorem write_rendered_char_some_fields {w : FrameBufferWriter}
    {rc : RasterizedChar} {w' : FrameBufferWriter}
    (h : write_rendered_char w rc = some w') :
    w'.info = w.info ∧ w'.y_pos = w.y_pos ∧
    w'.framebuffer.length = w.framebuffer.length ∧
    w'.x_pos = w.x_pos + rc.width + LETTER_SPACING := by
  unfold write_rendered_char at h
  cases hp : write_pixels w (glyph_pixels w.x_pos w.y_pos rc.raster) with
  | none => rw [hp] at h; exact Option.noConfusion h
  | some w1 =>
    rw [hp] at h
    simp only [Option.map_some'] at h
    obtain rfl := Option.some.inj h
    obtain ⟨hi, hx, hy, hl⟩ := write_pixels_some_fields _ _ _ hp
    exact ⟨hi, hy, hl, by rw [hx]⟩

/-- A successful `write_char` preserves geometry and buffer length. -/
theorem write_char_some_fields {F : FontModel} {w : FrameBufferWriter}
    {c : Char} {w' : FrameBufferWriter} (h : write_char F w c = some w') :
    w'.info = w.info ∧ w'.framebuffer.length = w.framebuffer.length := by
  simp only [write_char] at h
  split_ifs at h
  all_goals first
    | (obtain rfl := Option.some.inj h; exact ⟨rfl, rfl⟩)
    | (obtain ⟨hi, -, hl, -⟩ := write_rendered_char_some_fields h
       refine ⟨hi.trans ?_, hl.trans ?_⟩ <;> simp [newline, carriage_return, clear])

/-- A successful `write_chars` preserves geometry and buffer length. -/
theorem write_chars_some_fields {F : FontModel} :
    ∀ (cs : List Char) (w w' : FrameBufferWriter),
    write_chars F w cs = some w' →
    w'.info = w.info ∧ w'.framebuffer.length = w.framebuffer.length := by
  intro cs
  induction cs with
  | nil =>
    intro w w' h
    simp only [write_chars, Option.some.injEq] at h
    subst h
    exact ⟨rfl, rfl⟩
  | cons c cs ih =>
    intro w w' h
    simp only [write_chars] at h
    cases hc : write_char F w c with
    | none => rw [hc] at h; exact Option.noConfusion h
    | some w1 =>
      rw [hc] at h
      obtain ⟨hi1, hl1⟩ := write_char_some_fields hc
      obtain ⟨hi2, hl2⟩ := ih w1 w' h
      exact ⟨hi2.trans hi1, hl2.trans hl1⟩

/-- A successful `backspace` preserves geometry, vertical position and
buffer length. -/
theorem backspace_some_fields {F : FontModel} {w w' : FrameBufferWriter}
    (h : backspace F w = some w') :
    w'.info = w.info ∧ w'.y_pos = w.y_pos ∧
    w'.framebuffer.length = w.framebuffer.length := by
  unfold backspace at h
  split_ifs at h with h1
  · obtain ⟨hi, -, hy, hl⟩ := write_pixels_some_fields _ _ _ h
    exact ⟨hi, hy, hl⟩
  · obtain rfl := Option.some.inj h
    exact ⟨rfl, rfl, rfl⟩

end FrameBufferWriter

/-! ## Claim theorems -/

/-- C5: writing the single-character string `"\n"` from any cursor
position always yields `x_pos` = border padding and `y_pos` = old `y_pos`
plus raster height plus line spacing, with no clamping to the buffer
height. -/
theorem write_newline_always_advances (F : FontModel) (w : FrameBufferWriter) :
    w.write_str F "\n" =
      some { w with x_pos := BORDER_PADDING,
                    y_pos := w.y_pos + F.char_raster_height + LINE_SPACING } := by
  show FrameBufferWriter.write_chars F w ['\n'] = _
  simp [FrameBufferWriter.write_chars, FrameBufferWriter.write_char,
        FrameBufferWriter.newline, FrameBufferWriter.carriage_return]

/-- C10: a formatted console write performed while the shared console
handle is still `None` (before initialization) silently does nothing: the
handle stays `None`, no output state changes and no panic occurs. -/
theorem printx_uninitialized_is_noop (F : FontModel) (s : String) :
    printx F none s = some none := rfl

/-- C8: a pixel write whose format is not RGB, BGR or single-channel is
fatal: `write_pixel` reaches the `panic!` arm (the system halts in the
panic handler's `hlt` loop) before any framebuffer byte is written, so the
call produces no successor state at all. -/
theorem write_pixel_unsupported_format_fatal (w : FrameBufferWriter)
    (x y i : Nat) (h : w.info.pixel_format.supported = false) :
    w.write_pixel x y i = none := by
  cases hf : w.info.pixel_format <;>
    simp_all [PixelFormat.supported, FrameBufferWriter.write_pixel,
              FrameBufferWriter.color_for]

/-- Witness for C8 at the concrete writer `wU` with an `Unknown` format. -/
theorem write_pixel_unsupported_format_fatal_witness :
    wU.write_pixel 0 0 255 = none :=
  write_pixel_unsupported_format_fatal wU 0 0 255 (by decide)

/-- C4: classification of a complete decoded key event by the keyboard
interrupt handler: a Unicode character with code point 8 triggers the
console backspace operation (through the shared handle), any other Unicode
character is appended to console output, and a non-Unicode raw key is
rendered via its symbolic identifier text. -/
theorem keyboard_handler_classification (F : FontModel) :
    (handle_decoded_key F (DecodedKey.unicode (Char.ofNat 8)) none = some none) ∧
    (∀ w : FrameBufferWriter,
      handle_decoded_key F (DecodedKey.unicode (Char.ofNat 8)) (some w) =
        (w.backspace F).map some) ∧
    (∀ c : Char, c ≠ Char.ofNat 8 → ∀ console,
      handle_decoded_key F (DecodedKey.unicode c) console =
        printx F console (String.mk [c])) ∧
    (∀ s console, handle_decoded_key F (DecodedKey.rawKey s) console =
        printx F console s) := by
  refine ⟨?_, fun w => ?_, fun c hc console => ?_, fun s console => rfl⟩
  · simp [handle_decoded_key]
  · simp [handle_decoded_key]
  · simp [handle_decoded_key, hc]

/-- Witness for C4 at a concrete non-backspace character. -/
theorem keyboard_handler_classification_witness :
    handle_decoded_key fontS (DecodedKey.unicode 'a') none =
      printx fontS none (String.mk ['a']) :=
  (keyboard_handler_classification fontS).2.2.1 'a' (by decide) none

/-- C7: each hardware interrupt handler acknowledges exactly its own line
exactly once, as its final action before returning: the timer handler's
trace contains precisely one end-of-interrupt, for line 32, and the
keyboard handler's trace — whatever the decoder produced — contains
precisely one end-of-interrupt, for line 33, in last position. -/
theorem handlers_send_exactly_one_eoi :
    (timer_interrupt_handler_actions.filter HwAction.isEoi =
      [HwAction.eoi InterruptIndex.Timer.as_u8]) ∧
    (timer_interrupt_handler_actions.getLast? =
      some (HwAction.eoi InterruptIndex.Timer.as_u8)) ∧
    InterruptIndex.Timer.as_u8 = 32 ∧
    InterruptIndex.Keyboard.as_u8 = 33 ∧
    (∀ outcome : Option DecodedKey,
      (keyboard_interrupt_handler_actions outcome).filter HwAction.isEoi =
        [HwAction.eoi InterruptIndex.Keyboard.as_u8] ∧
      (keyboard_interrupt_handler_actions outcome).getLast? =
        some (HwAction.eoi InterruptIndex.Keyboard.as_u8)) := by
  refine ⟨rfl, rfl, rfl, rfl, fun outcome => ?_⟩
  cases outcome with
  | none => exact ⟨rfl, rfl⟩
  | some k =>
    cases k with
    | unicode c =>
      by_cases hc : c = Char.ofNat 8 <;>
        simp [keyboard_interrupt_handler_actions, keyboard_console_actions,
              HwAction.isEoi, hc, List.filter_append, ← List.cons_append,
              List.getLast?_concat]
    | rawKey s =>
      simp [keyboard_interrupt_handler_actions, keyboard_console_actions,
            HwAction.isEoi, List.filter_append, ← List.cons_append,
            List.getLast?_concat]

/-- C1 (failing input for the claim): on a 100×100 buffer with glyph cell
height 18, `set_cursor(6, 0)` computes 6·18 = 108 ≥ 100 and takes the
clamp-and-clear path; the framebuffer is zero-filled as claimed, but the
final vertical position is `BORDER_PADDING`, not the claimed last-row
position (100/18 − 1)·18 = 72, because the `clear()` call on line 86
resets the cursor that line 85 just clamped. -/
theorem set_cursor_overflow_divergence :
    6 * (fontS.char_raster_height + LINE_SPACING) ≥ wA.height ∧
    (wA.set_cursor fontS 6 0).framebuffer = [0, 0, 0, 0] ∧
    (wA.set_cursor fontS 6 0).y_pos = BORDER_PADDING ∧
    (wA.set_cursor fontS 6 0).y_pos ≠
      (wA.height / (fontS.char_raster_height + LINE_SPACING) - 1) *
        (fontS.char_raster_height + LINE_SPACING) := by decide

/-- C2 (counterexample): from a freshly created 30×10 writer, the single
console operation `write("\n")` leaves the cursor's vertical position at
19, which is not inside the buffer height 10: the claimed invariant
`y_pos < height` does not hold across console operations. -/
theorem cursor_bounds_counterexample :
    runOps fontS wB [ConsoleOp.write "\n"] =
      some { framebuffer := List.replicate 8 0, info := infoB,
             x_pos := BORDER_PADDING, y_pos := 19 } ∧
    ¬ (19 < infoB.height) := by decide

/-- C2 (amended): the cursor may leave the buffer bounds (a newline adds
the line height to `y_pos` without clamping), but no console operation
ever writes a byte outside the framebuffer slice: creation and every
completing operation preserve the buffer length and the geometry, and an
out-of-range pixel write panics instead of writing. -/
theorem console_ops_preserve_buffer (F : FontModel) :
    (∀ fb info, (FrameBufferWriter.new fb info).framebuffer.length = fb.length ∧
      (FrameBufferWriter.new fb info).info = info) ∧
    (∀ (w w' : FrameBufferWriter) (ops : List ConsoleOp),
      runOps F w ops = some w' →
      w'.framebuffer.length = w.framebuffer.length ∧ w'.info = w.info) := by
  constructor
  · intro fb info
    simp [FrameBufferWriter.new, FrameBufferWriter.clear]
  · intro w w' ops
    induction ops generalizing w with
    | nil =>
      intro h
      simp only [runOps, Option.some.injEq] at h
      subst h
      exact ⟨rfl, rfl⟩
    | cons op ops ih =>
      intro h
      simp only [runOps] at h
      cases hop : runOp F w op with
      | none => rw [hop] at h; exact Option.noConfusion h
      | some w1 =>
        rw [hop] at h
        have h1 : w1.framebuffer.length = w.framebuffer.length ∧ w1.info = w.info := by
          cases op with
          | write s =>
            simp only [runOp, FrameBufferWriter.write_str] at hop
            obtain ⟨hi, hl⟩ := FrameBufferWriter.write_chars_some_fields _ _ _ hop
            exact ⟨hl, hi⟩
          | setCursor row column =>
            simp only [runOp, Option.some.injEq] at hop
            subst hop
            exact ⟨(FrameBufferWriter.set_cursor_fields F w row column).2,
                   (FrameBufferWriter.set_cursor_fields F w row column).1⟩
          | doBackspace =>
            simp only [runOp] at hop
            obtain ⟨hi, -, hl⟩ := FrameBufferWriter.backspace_some_fields hop
            exact ⟨hl, hi⟩
        obtain ⟨hl2, hi2⟩ := ih w1 h
        exact ⟨hl2.trans h1.1, hi2.trans h1.2⟩

/-- Witness for C2's amended theorem at the concrete overflow input of
`set_cursor(6, 0)` on `wA`. -/
theorem console_ops_preserve_buffer_witness :
    (wA.set_cursor fontS 6 0).framebuffer.length = wA.framebuffer.length ∧
    (wA.set_cursor fontS 6 0).info = wA.info :=
  (console_ops_preserve_buffer fontS).2 wA (wA.set_cursor fontS 6 0)
    [ConsoleOp.setCursor 6 0] (by decide)

/-- C3: a completing pixel write modifies exactly the `bytes_per_pixel`
contiguous bytes starting at byte offset `(y·stride + x)·bytes_per_pixel`
— they receive the prefix of the color array derived for the format — and
no other framebuffer byte, cursor coordinate or geometry field changes;
the color arrays are (i, i, i/2, 0) for RGB, (i/2, i, i, 0) for BGR and
the binary threshold at 200 for single-channel. -/
theorem write_pixel_frame_effect (w : FrameBufferWriter) (x y i : Nat)
    (w' : FrameBufferWriter) (h : w.write_pixel x y i = some w') :
    w'.info = w.info ∧ w'.x_pos = w.x_pos ∧ w'.y_pos = w.y_pos ∧
    w'.framebuffer.length = w.framebuffer.length ∧
    (∀ j : Nat, ¬ pixelBytes w.info x y j →
      w'.framebuffer[j]? = w.framebuffer[j]?) ∧
    (∀ color : List Nat,
      FrameBufferWriter.color_for w.info.pixel_format i = some color →
      ∀ k : Nat, k < w.info.bytes_per_pixel →
        w'.framebuffer[(y * w.info.stride + x) * w.info.bytes_per_pixel + k]? =
          color[k]?) ∧
    FrameBufferWriter.color_for PixelFormat.rgb i = some [i, i, i / 2, 0] ∧
    FrameBufferWriter.color_for PixelFormat.bgr i = some [i / 2, i, i, 0] ∧
    FrameBufferWriter.color_for PixelFormat.u8 i =
      some [if i > 200 then 0xf else 0, 0, 0, 0] := by
  obtain ⟨hi, hx, hy, hl⟩ := FrameBufferWriter.write_pixel_some_fields h
  obtain ⟨color0, hc0, -, -, -, -⟩ := FrameBufferWriter.write_pixel_some_spec h
  refine ⟨hi, hx, hy, hl, ?_, ?_, rfl, rfl, rfl⟩
  · intro j hj
    rw [FrameBufferWriter.write_pixel_getElem? hc0 h j, if_neg hj]
  · intro color hc k hk
    rw [hc] at hc0
    obtain rfl := Option.some.inj hc0
    rw [FrameBufferWriter.write_pixel_getElem? hc h _,
      if_pos ⟨Nat.le_add_right _ _, by omega⟩]
    have hsub : (y * w.info.stride + x) * w.info.bytes_per_pixel + k -
        (y * w.info.stride + x) * w.info.bytes_per_pixel = k := by omega
    rw [hsub]

/-- Witness for C3 at the concrete write `write_pixel(1, 0, 10)` on `wC`:
the byte outside the pixel's range is unchanged and the first written byte
is the intensity 10. -/
theorem write_pixel_frame_effect_witness :
    wCafter.framebuffer[0]? = wC.framebuffer[0]? ∧
    wCafter.framebuffer[2]? = some 10 := by
  have h := write_pixel_frame_effect wC 1 0 10 wCafter (by decide)
  constructor
  · exact h.2.2.2.2.1 0 (by decide)
  · have h6 := h.2.2.2.2.2.1 [10, 10, 5, 0] (by decide) 0 (by decide)
    simpa [wC, infoC] using h6

/-- C9 (amended): `write_pixel` has no bounds check of its own and panics
whenever `bytes_per_pixel > 4` or `(y·stride + x + 1)·bytes_per_pixel`
exceeds the framebuffer length; for a supported format the call succeeds
exactly when additionally the read-back index `(y·stride + x)·
bytes_per_pixel` is inside the framebuffer (which follows from the other
two conditions whenever `bytes_per_pixel ≥ 1`). -/
theorem write_pixel_success_conditions (w : FrameBufferWriter) (x y i : Nat) :
    (¬ (w.info.bytes_per_pixel ≤ 4 ∧
        (y * w.info.stride + x + 1) * w.info.bytes_per_pixel ≤
          w.framebuffer.length) →
      w.write_pixel x y i = none) ∧
    (w.info.pixel_format.supported = true →
      ((w.write_pixel x y i).isSome = true ↔
        (w.info.bytes_per_pixel ≤ 4 ∧
         (y * w.info.stride + x + 1) * w.info.bytes_per_pixel ≤
           w.framebuffer.length ∧
         (y * w.info.stride + x) * w.info.bytes_per_pixel <
           w.framebuffer.length))) := by
  have hmul : (y * w.info.stride + x + 1) * w.info.bytes_per_pixel =
      (y * w.info.stride + x) * w.info.bytes_per_pixel + w.info.bytes_per_pixel :=
    Nat.succ_mul _ _
  constructor
  · intro hne
    cases hw : w.write_pixel x y i with
    | none => rfl
    | some w' =>
      obtain ⟨color, hc, h1, h2, h3, -⟩ := FrameBufferWriter.write_pixel_some_spec hw
      have h4 := FrameBufferWriter.color_for_length _ _ _ hc
      exact absurd ⟨by omega, by omega⟩ hne
  · intro hs
    constructor
    · intro hsome
      obtain ⟨w', hw⟩ := Option.isSome_iff_exists.mp hsome
      obtain ⟨color, hc, h1, h2, h3, -⟩ := FrameBufferWriter.write_pixel_some_spec hw
      have h4 := FrameBufferWriter.color_for_length _ _ _ hc
      exact ⟨by omega, by omega, h3⟩
    · rintro ⟨h1, h2, h3⟩
      have hcolor : ∃ color,
          FrameBufferWriter.color_for w.info.pixel_format i = some color ∧
          color.length = 4 := by
        cases hf : w.info.pixel_format
        · exact ⟨_, rfl, rfl⟩
        · exact ⟨_, rfl, rfl⟩
        · exact ⟨_, rfl, rfl⟩
        · rw [hf] at hs
          simp [PixelFormat.supported] at hs
      obtain ⟨color, hc, hlen⟩ := hcolor
      simp only [FrameBufferWriter.write_pixel, hc]
      rw [if_pos ⟨by omega, by omega, h3⟩]
      rfl

/-- Witness for C9's amended theorem: with five declared bytes per pixel
the claimed precondition fails and the call panics. -/
theorem write_pixel_success_conditions_witness :
    wP.write_pixel 0 0 5 = none :=
  (write_pixel_success_conditions wP 0 0 5).1 (by decide)

/-- C9 (counterexample to the claim as stated): with zero bytes per pixel
and an empty framebuffer both preconditions named by the claim hold
(`0 ≤ 4` and `(0·stride + 0 + 1)·0 = 0 ≤ 0`), yet the call panics, because
the final volatile read-back indexes `framebuffer[0]` in an empty slice. -/
theorem write_pixel_readback_counterexample :
    wZ.info.bytes_per_pixel ≤ 4 ∧
    (0 * wZ.info.stride + 0 + 1) * wZ.info.bytes_per_pixel ≤
      wZ.framebuffer.length ∧
    wZ.write_pixel 0 0 5 = none := by decide

/-- Inversion of membership in the backspace repaint pixel list. -/
theorem mem_backspace_pixels {F : FontModel} {x0 y0 : Nat} {p : Nat × Nat × Nat}
    (hp : p ∈ FrameBufferWriter.backspace_pixels F x0 y0) :
    ∃ dx dy, dx < F.char_raster_width ∧ dy < F.char_raster_height ∧
      p = (x0 + dx, y0 + dy, 0) := by
  unfold FrameBufferWriter.backspace_pixels at hp
  obtain ⟨l, hl, hpl⟩ := List.mem_flatten.mp hp
  obtain ⟨dy, hdy, rfl⟩ := List.mem_map.mp hl
  obtain ⟨dx, hdx, rfl⟩ := List.mem_map.mp hpl
  exact ⟨dx, dy, List.mem_range.mp (List.mem_reverse.mp hdx),
    List.mem_range.mp hdy, rfl⟩

/-- Construction of membership in the backspace repaint pixel list. -/
theorem backspace_pixels_mem {F : FontModel} {x0 y0 dx dy : Nat}
    (hdx : dx < F.char_raster_width) (hdy : dy < F.char_raster_height) :
    (x0 + dx, y0 + dy, 0) ∈ FrameBufferWriter.backspace_pixels F x0 y0 := by
  unfold FrameBufferWriter.backspace_pixels
  refine List.mem_flatten.mpr
    ⟨List.map (fun dx => (x0 + dx, y0 + dy, 0))
      (List.range F.char_raster_width).reverse, ?_, ?_⟩
  · exact List.mem_map.mpr ⟨dy, List.mem_range.mpr hdy, rfl⟩
  · exact List.mem_map.mpr ⟨dx, List.mem_reverse.mpr (List.mem_range.mpr hdx), rfl⟩

/-- C6: `backspace()` at the left margin (cursor strictly left of border
padding plus one advance width) is a no-op — cursor and every framebuffer
byte unchanged; away from the left margin a completing `backspace()` moves
the cursor left by one glyph cell, leaves `y_pos` (and the geometry and
buffer length) unchanged — it never crosses to a previous line — and
repaints exactly that cell's pixel bytes to zero, leaving every other byte
unchanged. -/
theorem backspace_spec (F : FontModel) (w : FrameBufferWriter) :
    (w.x_pos < BORDER_PADDING + F.char_raster_width → w.backspace F = some w) ∧
    (∀ w' : FrameBufferWriter, w.backspace F = some w' →
      w'.y_pos = w.y_pos ∧ w'.info = w.info ∧
      w'.framebuffer.length = w.framebuffer.length ∧
      (BORDER_PADDING + F.char_raster_width ≤ w.x_pos →
        w'.x_pos = w.x_pos - (F.char_raster_width + LETTER_SPACING) ∧
        (∀ j : Nat,
          cellBytes F w.info (w.x_pos - (F.char_raster_width + LETTER_SPACING))
            w.y_pos j →
          w'.framebuffer[j]? = some 0) ∧
        (∀ j : Nat,
          ¬ cellBytes F w.info (w.x_pos - (F.char_raster_width + LETTER_SPACING))
            w.y_pos j →
          w'.framebuffer[j]? = w.framebuffer[j]?))) := by
  constructor
  · intro hlt
    unfold FrameBufferWriter.backspace
    rw [if_neg (by omega)]
  · intro w' h
    obtain ⟨hi, hy, hl⟩ := FrameBufferWriter.backspace_some_fields h
    refine ⟨hy, hi, hl, ?_⟩
    intro hge
    unfold FrameBufferWriter.backspace at h
    rw [if_pos (by omega)] at h
    dsimp only at h
    have hx : w'.x_pos = w.x_pos - (F.char_raster_width + LETTER_SPACING) := by
      obtain ⟨-, hx1, -, -⟩ := FrameBufferWriter.write_pixels_some_fields _ _ _ h
      exact hx1
    refine ⟨hx, ?_, ?_⟩
    · intro j hj
      obtain ⟨dx, dy, hdx, hdy, hpix⟩ := hj
      have heff := FrameBufferWriter.write_pixels_zero_effect _ _ _
        (fun p hp => by
          obtain ⟨dx', dy', -, -, rfl⟩ := mem_backspace_pixels hp
          rfl) h
      exact (heff j).1
        ⟨(w.x_pos - (F.char_raster_width + LETTER_SPACING) + dx,
          w.y_pos + dy, 0), backspace_pixels_mem hdx hdy, hpix⟩
    · intro j hj
      have heff := FrameBufferWriter.write_pixels_zero_effect _ _ _
        (fun p hp => by
          obtain ⟨dx', dy', -, -, rfl⟩ := mem_backspace_pixels hp
          rfl) h
      refine (heff j).2 ?_
      rintro ⟨p, hp, hpix⟩
      obtain ⟨dx, dy, hdx, hdy, rfl⟩ := mem_backspace_pixels hp
      exact hj ⟨dx, dy, hdx, hdy, hpix⟩

/-- Witness for C6 at the concrete left-margin writer `wM`. -/
theorem backspace_spec_witness :
    wM.backspace fontS = some wM :=
  (backspace_spec fontS wM).1 (by decide)
